import Mathlib

/-!
Verification development for the OcaHandler streaming response normalizer
(`src/api/providers/oca-handler.ts`).  The repository holds two revisions of
the handler in the same file; we embed both where the claims touch both:
the first revision (called V1 below) keeps a single pending tool-call
identity slot on the handler (`pendingToolCallId` / `pendingToolCallName`),
the second revision (called V2 below) keeps a `toolCallIdentityById` map.
The chat-completions streaming loop is identical in both revisions and is
embedded once.

JavaScript truthiness is modelled explicitly: an optional string field is
`Option String`, and a string is truthy iff it is present and non-empty.
-/

/-- Truthiness of an optional string as JavaScript sees it:
present and non-empty. -/
def truthyS : Option String → Bool
  | some s => s ≠ ""
  | none => false

/-- JavaScript `a || b` on optional strings: keep `a` when truthy,
otherwise evaluate to `b` unchanged. -/
def jsOrS (a b : Option String) : Option String :=
  if truthyS a then a else b

/-- The normalized output events yielded by `createMessage`
(`text`, `reasoning`, `tool_call_partial`, `tool_call`, `tool_call_end`,
`usage` chunks in the source). -/
inductive OutChunk where
  | text (text : String)
  | reasoning (text : String)
  | toolCallPart (index : Nat) (id : Option String) (name : Option String) (arguments : Option String)
  | toolCall (id : String) (name : String) (arguments : String)
  | toolCallEnd (id : String)
  | usage (inputTokens outputTokens : Nat)
  deriving DecidableEq

/-- `function` object on a tool-call delta or output item:
`{ name?, arguments? }`. -/
structure RespFunction where
  name : Option String := none
  arguments : Option String := none
  deriving DecidableEq

/-- One entry of `delta.tool_calls` in a chat-completions chunk. -/
structure ChatToolCall where
  index : Nat := 0
  id : Option String := none
  function : Option RespFunction := none
  deriving DecidableEq

/-- `chunk.usage` of a chat-completions chunk. -/
structure ChatUsage where
  prompt_tokens : Option Nat := none
  completion_tokens : Option Nat := none
  deriving DecidableEq

/-- `choices[0].delta` of a chat-completions chunk. -/
structure ChatDelta where
  content : Option String := none
  tool_calls : Option (List ChatToolCall) := none
  reasoning_content : Option String := none
  reasoning : Option String := none
  deriving DecidableEq

/-- A chat-completions streaming chunk, collapsed to the fields the handler
reads: `choices[0].delta`, `choices[0].finish_reason`, `chunk.usage`. -/
structure ChatChunk where
  delta : Option ChatDelta := none
  finish_reason : Option String := none
  usage : Option ChatUsage := none
  deriving DecidableEq

/-- Emit a `text` event iff the optional string is truthy
(`if (delta?.content) yield { type: "text", ... }`). -/
def textIfTruthy (o : Option String) : List OutChunk :=
  match o with
  | some s => if s = "" then [] else [OutChunk.text s]
  | none => []

/-- Emit a `reasoning` event iff the optional string is truthy. -/
def reasoningIfTruthy (o : Option String) : List OutChunk :=
  match o with
  | some s => if s = "" then [] else [OutChunk.reasoning s]
  | none => []

/-- `activeToolCallIds.add id` on the insertion-ordered set, modelled as a
duplicate-free list. -/
def addActive (st : List String) (id : String) : List String :=
  if id ∈ st then st else st ++ [id]

/-- The `delta.tool_calls` list of a chunk (empty when absent). -/
def chunkToolCalls (c : ChatChunk) : List ChatToolCall :=
  match c.delta with
  | some d => d.tool_calls.getD []
  | none => []

/-- The loop over `delta.tool_calls`: record each truthy `toolCall.id` in the
active set and yield a `tool_call_partial` chunk for every entry. -/
def emitToolCalls (st : List String) : List ChatToolCall → List String × List OutChunk
  | [] => (st, [])
  | tc :: rest =>
      let st1 :=
        match tc.id with
        | some s => if s = "" then st else addActive st s
        | none => st
      let out := emitToolCalls st1 rest
      (out.1, OutChunk.toolCallPart tc.index tc.id (tc.function.bind RespFunction.name)
        (tc.function.bind RespFunction.arguments) :: out.2)

/-- The `reasoning_content` / `reasoning` selection: take `reasoning_content`
whenever the field is present (a string), else `reasoning`. -/
def chunkReasoningText (c : ChatChunk) : Option String :=
  match c.delta with
  | some d =>
    match d.reasoning_content with
    | some s => some s
    | none => d.reasoning
  | none => none

/-- Usage emission `{ inputTokens: prompt_tokens || 0, outputTokens: completion_tokens || 0 }`. -/
def usageOfChat (u : Option ChatUsage) : List OutChunk :=
  match u with
  | some v => [OutChunk.usage (v.prompt_tokens.getD 0) (v.completion_tokens.getD 0)]
  | none => []

/-- Processing of one chat-completions chunk: the body of the
`for await (const chunk of stream)` loop in `createMessage`.  Returns the
updated active-id set and the chunks yielded, in yield order. -/
def processChatChunk (st : List String) (c : ChatChunk) : List String × List OutChunk :=
  let textOut := textIfTruthy (c.delta.bind ChatDelta.content)
  let tcRes := emitToolCalls st (chunkToolCalls c)
  let reasonOut := reasoningIfTruthy (chunkReasoningText c)
  let flush :=
    if c.finish_reason = some "tool_calls" ∧ tcRes.1 ≠ [] then
      (([] : List String), tcRes.1.map OutChunk.toolCallEnd)
    else (tcRes.1, ([] : List OutChunk))
  let usageOut := usageOfChat c.usage
  (flush.1, textOut ++ tcRes.2 ++ reasonOut ++ flush.2 ++ usageOut)

/-- The chat-completions stream loop followed by the trailing finalization
flush: any ids still in `activeToolCallIds` when the raw stream ends get a
synthetic `tool_call_end`. -/
def chatRun (st : List String) : List ChatChunk → List OutChunk
  | [] => st.map OutChunk.toolCallEnd
  | c :: cs =>
      let step := processChatChunk st c
      step.2 ++ chatRun step.1 cs

/-- The active-id set left after folding the whole stream (before the
finalization flush). -/
def chatFinalState (st : List String) : List ChatChunk → List String
  | [] => st
  | c :: cs => chatFinalState (processChatChunk st c).1 cs

/-- `createMessage` on the chat-completions path, as a function of the decoded
chunk stream (identical in both handler revisions). -/
def chatCreateMessage (chunks : List ChatChunk) : List OutChunk :=
  chatRun [] chunks

/-- One entry of an output item's `content` array: `{ type, text? }`. -/
structure RespItemContent where
  type : String := ""
  text : Option String := none
  deriving DecidableEq

/-- An output item of the Responses API (`event.item`, or one element of
`response.output`): the fields the handler reads, all optional except the
`type` discriminator. -/
structure RespItem where
  type : String := ""
  call_id : Option String := none
  tool_call_id : Option String := none
  id : Option String := none
  name : Option String := none
  function : Option RespFunction := none
  function_name : Option String := none
  function_arguments : Option String := none
  text : Option String := none
  arguments : Option String := none
  content : Option (List RespItemContent) := none
  deriving DecidableEq

/-- `response.usage` / `event.usage` of the Responses API. -/
structure RespUsage where
  input_tokens : Option Nat := none
  output_tokens : Option Nat := none
  prompt_tokens : Option Nat := none
  completion_tokens : Option Nat := none
  deriving DecidableEq

/-- The `event.response` object: `{ id?, usage?, output? }`. -/
structure RespResponse where
  id : Option String := none
  usage : Option RespUsage := none
  output : Option (List RespItem) := none
  deriving DecidableEq

/-- A raw Responses-API streaming event, collapsed to the fields the handler
reads.  `content0_text` models `event.content?.[0]?.text` and
`choices0_delta_content` models `event.choices?.[0]?.delta?.content`. -/
structure RespEvent where
  type : String := ""
  delta : Option String := none
  text : Option String := none
  content0_text : Option String := none
  call_id : Option String := none
  tool_call_id : Option String := none
  id : Option String := none
  name : Option String := none
  function_name : Option String := none
  arguments : Option String := none
  index : Option Nat := none
  item : Option RespItem := none
  response : Option RespResponse := none
  choices0_delta_content : Option String := none
  usage : Option RespUsage := none
  deriving DecidableEq

/-- Handler state of the first revision (V1): the four mutable instance
fields `lastResponseId`, `lastResponseOutput`, `pendingToolCallId`,
`pendingToolCallName`. -/
structure V1State where
  lastResponseId : Option String := none
  lastResponseOutput : Option (List RespItem) := none
  pendingToolCallId : Option String := none
  pendingToolCallName : Option String := none
  deriving DecidableEq

/-- The all-`none` V1 handler state. -/
def freshV1State : V1State := {}

/-- Emit a `text` event prefixed with the refusal marker iff the delta is
truthy (`yield { type: "text", text: `[Refusal] ${event.delta}` }`). -/
def refusalIfTruthy (o : Option String) : List OutChunk :=
  match o with
  | some s => if s = "" then [] else [OutChunk.text ("[Refusal] " ++ s)]
  | none => []

/-- Usage emission of the Responses paths:
`input_tokens ?? prompt_tokens ?? 0` / `output_tokens ?? completion_tokens ?? 0`. -/
def usageOfResp (u : Option RespUsage) : List OutChunk :=
  match u with
  | some v =>
      [OutChunk.usage ((v.input_tokens.orElse fun _ => v.prompt_tokens).getD 0)
        ((v.output_tokens.orElse fun _ => v.completion_tokens).getD 0)]
  | none => []

/-- `item.call_id || item.tool_call_id || item.id` on an output item. -/
def itemCallIdChain (item : RespItem) : Option String :=
  jsOrS item.call_id (jsOrS item.tool_call_id item.id)

/-- `item.name || item.function?.name || item.function_name` on an output item. -/
def itemNameChain (item : RespItem) : Option String :=
  jsOrS item.name (jsOrS (item.function.bind RespFunction.name) item.function_name)

/-- `item.arguments || item.function?.arguments || item.function_arguments`. -/
def itemArgsChain (item : RespItem) : Option String :=
  jsOrS item.arguments (jsOrS (item.function.bind RespFunction.arguments) item.function_arguments)

/-- The `text`/`output_text` content loop of a `message` output item:
`if ((content?.type === "text" || content?.type === "output_text") && content?.text)`. -/
def msgContentTexts (cs : List RespItemContent) : List OutChunk :=
  cs.filterMap fun c =>
    if (c.type = "text" ∨ c.type = "output_text") ∧ truthyS c.text then
      some (OutChunk.text (c.text.getD ""))
    else none

/-- V1 `response.output_item.added` / `response.output_item.done` handling:
record pending tool identity, then emit per item type.  `isDone` tells the
two event spellings apart. -/
def processOutputItemV1 (st : V1State) (isDone : Bool) (item : RespItem) :
    V1State × List OutChunk :=
  let isFn := item.type = "function_call" ∨ item.type = "tool_call"
  let st2 :=
    if isFn ∧ truthyS (itemCallIdChain item) then
      { st with pendingToolCallId := itemCallIdChain item,
                pendingToolCallName := itemNameChain item }
    else st
  if item.type = "text" ∧ truthyS item.text then
    (st2, [OutChunk.text (item.text.getD "")])
  else if item.type = "reasoning" ∧ truthyS item.text then
    (st2, [OutChunk.reasoning (item.text.getD "")])
  else if item.type = "message" ∧ item.content.isSome then
    (st2, msgContentTexts (item.content.getD []))
  else if isFn ∧ isDone then
    if truthyS (itemCallIdChain item) then
      (st2, [OutChunk.toolCall ((itemCallIdChain item).getD "")
              (if truthyS (itemNameChain item) then (itemNameChain item).getD "" else "")
              (match itemArgsChain item with | some s => s | none => "{}")])
    else (st2, [])
  else (st2, [])

/-- The unconditional captures at the top of V1 `processResponsesEvent`:
record `event.response.output` and a truthy `event.response.id` on the
handler before dispatching on the event type. -/
def captureResponseMeta (st : V1State) (ev : RespEvent) : V1State :=
  match ev.response with
  | some r =>
      let stA :=
        match r.output with
        | some out => { st with lastResponseOutput := some out }
        | none => st
      if truthyS r.id then { stA with lastResponseId := r.id } else stA
  | none => st

/-- V1 `processResponsesEvent`: one raw Responses event to an updated handler
state plus the chunks yielded for it. -/
def processResponsesEvent (st : V1State) (ev : RespEvent) : V1State × List OutChunk :=
  let st1 := captureResponseMeta st ev
  if ev.type = "response.text.delta" ∨ ev.type = "response.output_text.delta" then
    (st1, textIfTruthy ev.delta)
  else if ev.type = "response.reasoning.delta" ∨ ev.type = "response.reasoning_text.delta" ∨
      ev.type = "response.reasoning_summary.delta" ∨
      ev.type = "response.reasoning_summary_text.delta" then
    (st1, reasoningIfTruthy ev.delta)
  else if ev.type = "response.refusal.delta" then
    (st1, refusalIfTruthy ev.delta)
  else if ev.type = "response.tool_call_arguments.delta" ∨
      ev.type = "response.function_call_arguments.delta" then
    let callId := jsOrS ev.call_id (jsOrS ev.tool_call_id (jsOrS ev.id st1.pendingToolCallId))
    let nm := jsOrS ev.name (jsOrS ev.function_name st1.pendingToolCallName)
    if truthyS nm ∧ truthyS callId then
      (st1, [OutChunk.toolCallPart (ev.index.getD 0) callId nm (jsOrS ev.delta ev.arguments)])
    else (st1, [])
  else if ev.type = "response.tool_call_arguments.done" ∨
      ev.type = "response.function_call_arguments.done" then
    (st1, [])
  else if ev.type = "response.output_item.added" ∨ ev.type = "response.output_item.done" then
    match ev.item with
    | some item => processOutputItemV1 st1 (ev.type = "response.output_item.done") item
    | none => (st1, [])
  else if ev.type = "response.done" ∨ ev.type = "response.completed" then
    (st1, usageOfResp (ev.response.bind RespResponse.usage))
  else if truthyS ev.choices0_delta_content then
    (st1, [OutChunk.text (ev.choices0_delta_content.getD "")])
  else
    (st1, usageOfResp ev.usage)

/-- The V1 Responses event loop threading handler state. -/
def runResponsesV1 (st : V1State) : List RespEvent → List OutChunk
  | [] => []
  | ev :: evs =>
      let step := processResponsesEvent st ev
      step.2 ++ runResponsesV1 step.1 evs

/-- `createMessage` on the V1 Responses path: the handler first resets all
four instance fields to `undefined`, then consumes the event stream.  There
is no finalization step after the loop. -/
def createMessageResponsesV1 (st : V1State) (events : List RespEvent) : List OutChunk :=
  runResponsesV1
    { st with lastResponseId := none, lastResponseOutput := none,
              pendingToolCallId := none, pendingToolCallName := none }
    events

/-- `toolCallIdentityById.get` on the association-list model of the map
(call id to tool name). -/
def mapGet (tbl : List (String × String)) (k : String) : Option String :=
  match tbl with
  | [] => none
  | e :: rest => if e.1 = k then some e.2 else mapGet rest k

/-- `toolCallIdentityById.set k v`: replace the binding when the key is
present, otherwise append it. -/
def mapSet (tbl : List (String × String)) (k v : String) : List (String × String) :=
  match tbl with
  | [] => [(k, v)]
  | e :: rest => if e.1 = k then (k, v) :: rest else e :: mapSet rest k v

/-- V2 `processResponsesEvent`: one raw Responses event to an updated
`toolCallIdentityById` table plus the chunks yielded for it. -/
def processResponsesEventV2 (tbl : List (String × String)) (ev : RespEvent) :
    List (String × String) × List OutChunk :=
  if ev.type = "response.text.delta" ∨ ev.type = "response.output_text.delta" ∨
      ev.type = "response.output_text" ∨ ev.type = "response.text" then
    (tbl, textIfTruthy (jsOrS ev.delta (jsOrS ev.text ev.content0_text)))
  else if ev.type = "response.reasoning.delta" ∨ ev.type = "response.reasoning_text.delta" ∨
      ev.type = "response.reasoning_summary.delta" ∨
      ev.type = "response.reasoning_summary_text.delta" then
    (tbl, reasoningIfTruthy (jsOrS ev.delta ev.text))
  else if ev.type = "response.output_item.added" ∨ ev.type = "response.output_item.done" then
    match ev.item with
    | some item =>
        if item.type = "function_call" then
          let tbl2 :=
            if truthyS item.call_id ∧ truthyS item.name then
              mapSet tbl (item.call_id.getD "") (item.name.getD "")
            else tbl
          if ev.type = "response.output_item.done" then
            if truthyS item.call_id ∧ truthyS item.name ∧ truthyS item.arguments then
              (tbl2, [OutChunk.toolCall (item.call_id.getD "") (item.name.getD "")
                       (item.arguments.getD "")])
            else (tbl2, [])
          else (tbl2, [])
        else (tbl, [])
    | none => (tbl, [])
  else if ev.type = "response.tool_call_arguments.delta" ∨
      ev.type = "response.function_call_arguments.delta" then
    let cached := if truthyS ev.call_id then mapGet tbl (ev.call_id.getD "") else none
    let resolvedId := jsOrS ev.call_id (if cached.isSome then ev.call_id else none)
    let resolvedName := jsOrS ev.name cached
    if truthyS resolvedId ∧ truthyS resolvedName then
      (tbl, [OutChunk.toolCallPart 0 resolvedId resolvedName ev.delta])
    else (tbl, [])
  else if ev.type = "response.tool_call_arguments.done" ∨
      ev.type = "response.function_call_arguments.done" then
    (tbl, if truthyS ev.call_id then [OutChunk.toolCallEnd (ev.call_id.getD "")] else [])
  else if ev.type = "response.completed" ∨ ev.type = "response.done" then
    (tbl, usageOfResp (ev.response.bind RespResponse.usage))
  else (tbl, [])

/-- The V2 Responses event loop.  The table is the handler-instance map,
threaded in and handed back out: V2 never resets it. -/
def runResponsesV2 (tbl : List (String × String)) :
    List RespEvent → List (String × String) × List OutChunk
  | [] => (tbl, [])
  | ev :: evs =>
      let step := processResponsesEventV2 tbl ev
      let rest := runResponsesV2 step.1 evs
      (rest.1, step.2 ++ rest.2)

/-- `createMessage` on the V2 Responses path, as a function of the
handler-instance `toolCallIdentityById` table it starts from; returns the
table left on the instance afterwards together with the yielded chunks. -/
def createMessageResponsesV2 (tbl : List (String × String)) (events : List RespEvent) :
    List (String × String) × List OutChunk :=
  runResponsesV2 tbl events

/-- An image block's `source`: base64 payload or remote URL. -/
inductive ImageSource where
  | base64 (media_type : String) (data : String)
  | url (u : String)
  deriving DecidableEq

/-- A `tool_result` block's `content`: a plain string, an array of typed
blocks, or absent. -/
inductive ToolResultContent where
  | str (s : String)
  | blocks (bs : List RespItemContent)
  | absent
  deriving DecidableEq

/-- A block of a user message's content array. -/
inductive UserBlock where
  | text (s : String)
  | image (source : ImageSource)
  | toolResult (tool_use_id : String) (content : ToolResultContent)
  | other (t : String)
  deriving DecidableEq

/-- A block of an assistant message's content array.  `input_json` carries
`JSON.stringify(block.input)`: the argument object is opaque to the
formatter, so we model it by its stringified form. -/
inductive AsstBlock where
  | text (s : String)
  | toolUse (id : String) (name : String) (input_json : String)
  | other (t : String)
  deriving DecidableEq

/-- A message's `content` field: a string, an array of blocks, or neither. -/
inductive MsgContent (β : Type) where
  | str (s : String)
  | blocks (bs : List β)
  | neither
  deriving DecidableEq

/-- A source conversation message as `formatFullConversation` sees it:
a pass-through reasoning item (`m.type === "reasoning"`), a user or
assistant message, or a message with another role (skipped). -/
inductive SrcMessage where
  | reasoningItem (payload : String)
  | user (content : MsgContent UserBlock)
  | assistant (content : MsgContent AsstBlock)
  | otherRole
  deriving DecidableEq

/-- A content part of a role-bearing input item. -/
inductive ContentPart where
  | input_text (text : String)
  | input_image (image_url : String)
  | output_text (text : String)
  deriving DecidableEq

/-- A top-level input item produced by `formatFullConversation`. -/
inductive InputItem where
  | userMsg (content : List ContentPart)
  | assistantMsg (content : List ContentPart)
  | functionCallOutput (call_id : String) (output : String)
  | functionCall (call_id : String) (name : String) (arguments : String)
  | reasoningItem (payload : String)
  deriving DecidableEq

/-- The image URL construction: a base64 data URL or the remote URL. -/
def imageUrlOf : ImageSource → String
  | .base64 mt d => "data:" ++ mt ++ ";base64," ++ d
  | .url u => u

/-- Flattening of a `tool_result` block's content:
`typeof content === "string" ? content : content?.map(c => c.type === "text" ? c.text : "").join("") || ""`. -/
def flattenToolResult : ToolResultContent → String
  | .str s => s
  | .blocks bs => (bs.map fun c => if c.type = "text" then c.text.getD "" else "").foldl (· ++ ·) ""
  | .absent => ""

/-- The loop over a user message's blocks, accumulating the `content` array
and the `toolResults` array separately, exactly as the source does.
`san` is the external `sanitizeOpenAiCallId` function. -/
def collectUser (san : String → String) : List UserBlock → List ContentPart × List InputItem
  | [] => ([], [])
  | b :: bs =>
      let rest := collectUser san bs
      match b with
      | .text s => (ContentPart.input_text s :: rest.1, rest.2)
      | .image src => (ContentPart.input_image (imageUrlOf src) :: rest.1, rest.2)
      | .toolResult tid c =>
          (rest.1, InputItem.functionCallOutput (san tid) (flattenToolResult c) :: rest.2)
      | .other _ => rest

/-- The loop over an assistant message's blocks, accumulating `content` and
`toolCalls` separately. -/
def collectAsst (san : String → String) : List AsstBlock → List ContentPart × List InputItem
  | [] => ([], [])
  | b :: bs =>
      let rest := collectAsst san bs
      match b with
      | .text s => (ContentPart.output_text s :: rest.1, rest.2)
      | .toolUse i n args => (rest.1, InputItem.functionCall (san i) n args :: rest.2)
      | .other _ => rest

/-- Items contributed by one source message: the role-bearing item first
(when any content part exists), then the message's tool items. -/
def formatMsg (san : String → String) : SrcMessage → List InputItem
  | .reasoningItem p => [InputItem.reasoningItem p]
  | .user (.str s) => [InputItem.userMsg [ContentPart.input_text s]]
  | .user (.blocks bs) =>
      let cz := collectUser san bs
      (if cz.1 ≠ [] then [InputItem.userMsg cz.1] else []) ++ cz.2
  | .user .neither => []
  | .assistant (.str s) => [InputItem.assistantMsg [ContentPart.output_text s]]
  | .assistant (.blocks bs) =>
      let cz := collectAsst san bs
      (if cz.1 ≠ [] then [InputItem.assistantMsg cz.1] else []) ++ cz.2
  | .assistant .neither => []
  | .otherRole => []

/-- The `input.push`-based loop of `formatFullConversation` (the
`systemPrompt` parameter is unused by the source function's body). -/
def formatFullConversationGo (san : String → String) (acc : List InputItem) :
    List SrcMessage → List InputItem
  | [] => acc
  | m :: ms => formatFullConversationGo san (acc ++ formatMsg san m) ms

/-- `formatFullConversation` of the V1 revision, parameterized by the
external `sanitizeOpenAiCallId` function. -/
def formatFullConversation (san : String → String) (systemPrompt : String)
    (msgs : List SrcMessage) : List InputItem :=
  formatFullConversationGo san [] msgs

/-- The capability-record fields driving protocol selection. -/
structure ModelInfoSel where
  apiType : Option String := none
  supportedApiTypes : Option (List String) := none
  deriving DecidableEq

/-- `createMessage`'s protocol choice: prefer the Responses API iff
`apiType === "responses"` or `supportedApiTypes` includes `"RESPONSES"`. -/
def prefersResponsesSelect (mi : ModelInfoSel) : Bool :=
  mi.apiType == some "responses" ||
    (match mi.supportedApiTypes with
     | some l => l.contains "RESPONSES"
     | none => false)

/-- V1 `completePrompt`'s protocol choice: the chat-completions path iff
`info.apiType === "CHAT_COMPLETIONS"`, the Responses path otherwise. -/
def completePromptUsesChat (mi : ModelInfoSel) : Bool :=
  mi.apiType == some "CHAT_COMPLETIONS"

/-- A non-streaming Responses-API completion as `completePrompt` reads it:
`response.output` and the top-level `response.text` fallback. -/
structure RespCompletion where
  output : Option (List RespItem) := none
  text : Option String := none
  deriving DecidableEq

/-- The inner loop of V1 `completePrompt`'s extraction: the first content
entry with `type === "output_text"` and truthy `text`. -/
def firstOutputTextInContent : List RespItemContent → Option String
  | [] => none
  | c :: cs =>
      if c.type = "output_text" ∧ truthyS c.text then c.text
      else firstOutputTextInContent cs

/-- The outer loop of V1 `completePrompt`'s extraction over
`response.output`: the first `message` item with a `content` array that
contains an `output_text` entry with truthy text. -/
def firstOutputTextInItems : List RespItem → Option String
  | [] => none
  | it :: its =>
      if it.type = "message" ∧ it.content.isSome then
        match firstOutputTextInContent (it.content.getD []) with
        | some t => some t
        | none => firstOutputTextInItems its
      else firstOutputTextInItems its

/-- V1 `completePrompt`'s result extraction on the Responses path: the first
`output_text` found, else the truthy top-level `text`, else `""`. -/
def completePromptExtract (r : RespCompletion) : String :=
  let fromItems :=
    match r.output with
    | some items => firstOutputTextInItems items
    | none => none
  match fromItems with
  | some t => t
  | none => if truthyS r.text then r.text.getD "" else ""

/-- All the `Text` content of a Responses completion, in document order:
every truthy `output_text` entry of every `message` output item. -/
def allOutputTexts (r : RespCompletion) : List String :=
  (r.output.getD []).flatMap fun it =>
    if it.type = "message" ∧ it.content.isSome then
      (it.content.getD []).filterMap fun c =>
        if c.type = "output_text" ∧ truthyS c.text then c.text else none
    else []

/-- A native tool definition as passed in call metadata (the request builder
only inspects presence and count here). -/
structure ToolDef where
  fname : String := ""
  deriving DecidableEq

/-- A caller-supplied tool choice: the string form (`"auto"`, `"none"`,
`"required"`) or the object form naming a specific function. -/
inductive ToolChoiceV where
  | tcStr (s : String)
  | tcNamed (n : String)
  deriving DecidableEq

/-- Truthiness of an optional tool choice: the empty string is falsy, the
object form is always truthy. -/
def tcTruthy : Option ToolChoiceV → Bool
  | some (.tcStr s) => s ≠ ""
  | some (.tcNamed _) => true
  | none => false

/-- Call metadata fields read by the chat-path request builder. -/
structure MetaE where
  tools : Option (List ToolDef) := none
  toolProtocol : Option String := none
  tool_choice : Option ToolChoiceV := none
  parallelToolCalls : Option Bool := none
  deriving DecidableEq

/-- `useNativeTools`: capability allows native tools, at least one tool is
supplied, the protocol is not `"xml"`, and the choice is not `"none"`. -/
def useNativeTools (supportsNativeTools : Bool) (md : Option MetaE) : Bool :=
  supportsNativeTools &&
    (match md with
     | some m => (match m.tools with | some ts => decide (0 < ts.length) | none => false)
     | none => false) &&
    (match md with
     | some m => !(m.toolProtocol == some "xml")
     | none => true) &&
    (match md with
     | some m => !(m.tool_choice == some (ToolChoiceV.tcStr "none"))
     | none => true)

/-- `metadata?.tool_choice`. -/
def requestedToolChoice (md : Option MetaE) : Option ToolChoiceV :=
  md.bind MetaE.tool_choice

/-- The tie-break: an unset or `"auto"` choice under active native tools
resolves to `"required"`; anything else is kept as requested. -/
def finalToolChoice (supportsNativeTools : Bool) (md : Option MetaE) : Option ToolChoiceV :=
  if useNativeTools supportsNativeTools md &&
      (!(tcTruthy (requestedToolChoice md)) ||
        requestedToolChoice md == some (ToolChoiceV.tcStr "auto")) then
    some (ToolChoiceV.tcStr "required")
  else requestedToolChoice md

/-- The `tool_choice` field actually placed on the chat request:
`...(finalToolChoice && { tool_choice: finalToolChoice })`. -/
def requestToolChoice (supportsNativeTools : Bool) (md : Option MetaE) : Option ToolChoiceV :=
  if tcTruthy (finalToolChoice supportsNativeTools md) then
    finalToolChoice supportsNativeTools md
  else none

/-- The credential as `OcaTokenManager.getValid` hands it back. -/
structure OcaToken where
  access_token : Option String := none
  deriving DecidableEq

/-- The user-facing remediation message thrown when no valid bearer
credential is available. -/
def signInErrorMessage : String :=
  "Please sign in with Oracle SSO at Settings > Providers > Oracle Code Assist."

/-- The credential gate of `getClientWithBase`: fail with the sign-in
message unless a truthy `access_token` is present. -/
def getValidAccessToken (tok : Option OcaToken) : Except String String :=
  match tok with
  | some t =>
      match t.access_token with
      | some s => if s = "" then Except.error signInErrorMessage else Except.ok s
      | none => Except.error signInErrorMessage
  | none => Except.error signInErrorMessage

/-- A network request the handler can open. -/
inductive NetRequest where
  | chatCompletionReq
  | responsesReq
  deriving DecidableEq

/-- `createMessage` on the chat path including the credential gate: the
requests opened, and either the thrown error or the yielded chunks.
`getClient()` runs before anything touches the network. -/
def createMessageChatTop (tok : Option OcaToken) (chunks : List ChatChunk) :
    List NetRequest × Except String (List OutChunk) :=
  match getValidAccessToken tok with
  | Except.error e => ([], Except.error e)
  | Except.ok _ => ([NetRequest.chatCompletionReq], Except.ok (chatCreateMessage chunks))

/-- `completePrompt` including the credential gate (V2 form: always the
chat-completions endpoint, result `choices[0].message.content || ""`). -/
def completePromptTop (tok : Option OcaToken) (respContent : Option String) :
    List NetRequest × Except String String :=
  match getValidAccessToken tok with
  | Except.error e => ([], Except.error e)
  | Except.ok _ => ([NetRequest.chatCompletionReq], Except.ok (respContent.getD ""))

/-- Concrete Responses event: `response.output_item.added` carrying a
`function_call` item with `call_id "t1"` and `name "search"`. -/
def evItemAddedT1 : RespEvent :=
  { type := "response.output_item.added",
    item := some { type := "function_call", call_id := some "t1", name := some "search" } }

/-- Concrete Responses event: `response.tool_call_arguments.delta` with
`call_id "t1"`, `delta "{}"` and no name field. -/
def evArgsDeltaT1 : RespEvent :=
  { type := "response.tool_call_arguments.delta", call_id := some "t1", delta := some "{}" }

/-- Concrete Responses event: an argument delta carrying its own identity
(`call_id "t2"`, `name "other"`). -/
def evArgsDeltaT2Named : RespEvent :=
  { type := "response.function_call_arguments.delta", call_id := some "t2",
    name := some "other", delta := some "{}" }

/-- Concrete chat chunk carrying one tool-call delta with id `"c1"`. -/
def chunkToolC1 : ChatChunk :=
  { delta := some { tool_calls := some
                       [{ index := 0, id := some "c1",
                          function := some { name := some "lookup",
                                             arguments := some "{}" } }] } }

/-- Concrete chat chunk carrying only usage counters. -/
def chunkUsage105 : ChatChunk :=
  { usage := some { prompt_tokens := some 10, completion_tokens := some 5 } }

/-- Concrete chat chunk carrying a tool-call delta with neither id nor
name, only an argument fragment. -/
def chunkNoIdToolCall : ChatChunk :=
  { delta := some { tool_calls := some
                       [{ index := 0, function := some { arguments := some "x" } }] } }

/-- Concrete chat chunk carrying only the text `"Hi"`. -/
def chunkTextHi : ChatChunk :=
  { delta := some { content := some "Hi" } }

/-- Concrete source message list: one user message whose first block is a
tool result and whose second block is text. -/
def msgsToolResultFirst : List SrcMessage :=
  [SrcMessage.user (MsgContent.blocks
    [UserBlock.toolResult "x" (ToolResultContent.str "ok"), UserBlock.text "hi"])]

/-- Concrete capability record with neither `apiType` nor
`supportedApiTypes` set. -/
def miUnset : ModelInfoSel := {}

/-- Concrete non-streaming Responses completion holding one `message` item
with two `output_text` entries, `"a"` then `"b"`. -/
def respTwoTexts : RespCompletion :=
  { output := some [{ type := "message",
                      content := some [{ type := "output_text", text := some "a" },
                                       { type := "output_text", text := some "b" }] }] }

/-- The content part a single user block contributes, if any. -/
def userContentPartOf : UserBlock → Option ContentPart
  | .text s => some (ContentPart.input_text s)
  | .image src => some (ContentPart.input_image (imageUrlOf src))
  | .toolResult _ _ => none
  | .other _ => none

/-- The standalone tool item a single user block contributes, if any. -/
def userToolItemOf (san : String → String) : UserBlock → Option InputItem
  | .toolResult tid c => some (InputItem.functionCallOutput (san tid) (flattenToolResult c))
  | _ => none

/-- The content part a single assistant block contributes, if any. -/
def asstContentPartOf : AsstBlock → Option ContentPart
  | .text s => some (ContentPart.output_text s)
  | _ => none

/-- The standalone tool item a single assistant block contributes, if any. -/
def asstToolItemOf (san : String → String) : AsstBlock → Option InputItem
  | .toolUse i n args => some (InputItem.functionCall (san i) n args)
  | _ => none

/-- Whether a normalized chunk is a `usage` chunk. -/
def isUsageChunk : OutChunk → Bool
  | OutChunk.usage _ _ => true
  | _ => false

/-- Whether some tool-call delta entry of the chunk list carries the id. -/
def chatMentionsId (chunks : List ChatChunk) (id : String) : Bool :=
  chunks.any fun c => (chunkToolCalls c).any fun tc => tc.id == some id
/-- True unless the chunk is a `text` or `reasoning` chunk with empty
content: the property claim C10 asserts of every emitted chunk. -/
def nonEmptyTextChunk : OutChunk → Bool
  | OutChunk.text s => s ≠ ""
  | OutChunk.reasoning s => s ≠ ""
  | _ => true

/-- Claim C4: in the event-stream protocol, `output_item.added` carrying a
`function_call` item with call id `t1` and name `search`, followed by an
argument delta with call id `t1`, delta `"{}"` and no name, yields
`ToolCallPartial(id=t1, name=search, args="{}")`; and a delta carrying its
own identity fields uses those in preference to the pending fallback. -/
theorem C4_scenario_fallback_identity :
    createMessageResponsesV1 freshV1State [evItemAddedT1, evArgsDeltaT1]
      = [OutChunk.toolCallPart 0 (some "t1") (some "search") (some "{}")] ∧
    createMessageResponsesV1 freshV1State [evItemAddedT1, evArgsDeltaT2Named]
      = [OutChunk.toolCallPart 0 (some "t2") (some "other") (some "{}")] := by
  constructor <;> decide

/-- Claim C1, counterexample: on the V1 Responses path the id `t1` receives a
`ToolCallPartial` but the stream end produces no `ToolCallEnd` for it — the
`...arguments.done` handler does nothing and there is no finalization step,
so the claimed "exactly one ToolCallEnd before the stream ends" fails. -/
theorem C1_counterexample_responses_no_end :
    createMessageResponsesV1 freshV1State [evItemAddedT1, evArgsDeltaT1]
      = [OutChunk.toolCallPart 0 (some "t1") (some "search") (some "{}")] ∧
    OutChunk.toolCallEnd "t1" ∉ createMessageResponsesV1 freshV1State [evItemAddedT1, evArgsDeltaT1] := by
  constructor <;> decide

/-- Claim C2, counterexample: on the chat-completions path a tool-call delta
entry with neither id nor name — and no aggregator fallback — still yields a
`ToolCallPartial` with undefined identity, so the claimed "emits no output
event at all" fails for that path. -/
theorem C2_counterexample_chat_emits :
    chatCreateMessage [chunkNoIdToolCall]
      = [OutChunk.toolCallPart 0 none none (some "x")] ∧
    chatCreateMessage [chunkNoIdToolCall] ≠ [] := by
  constructor <;> decide

/-- Claim C3, counterexample: a chat stream whose tool call is never closed
by a `finish_reason === "tool_calls"` chunk gets its synthetic
`ToolCallEnd` emitted by the finalization flush after the `Usage` event, so
`Usage` is not terminal. -/
theorem C3_counterexample_end_after_usage :
    chatCreateMessage [chunkToolC1, chunkUsage105]
      = [OutChunk.toolCallPart 0 (some "c1") (some "lookup") (some "{}"),
         OutChunk.usage 10 5,
         OutChunk.toolCallEnd "c1"] ∧
    (chatCreateMessage [chunkToolC1, chunkUsage105]).getLast? = some (OutChunk.toolCallEnd "c1") := by
  constructor <;> decide

/-- Claim C5, counterexample: a user message whose tool-result block precedes
its text block is formatted with the role-bearing item first and the
`function_call_output` item second, so the produced order does not match the
source block order. -/
theorem C5_counterexample_block_order :
    formatFullConversation (fun s => s) "sys" msgsToolResultFirst
      = [InputItem.userMsg [ContentPart.input_text "hi"],
         InputItem.functionCallOutput "x" "ok"] ∧
    formatFullConversation (fun s => s) "sys" msgsToolResultFirst
      ≠ [InputItem.functionCallOutput "x" "ok",
         InputItem.userMsg [ContentPart.input_text "hi"]] := by
  constructor <;> decide

/-- Claim C6, counterexample: with `apiType` and `supportedApiTypes` unset,
`createMessage` picks the chat path while `completePrompt` picks the
Responses path, so the two do not run the same protocol selection; and the
Responses extraction returns the first `output_text` (`"a"`), not the
concatenation (`"ab"`). -/
theorem C6_counterexample_selection_and_concat :
    prefersResponsesSelect miUnset = false ∧
    completePromptUsesChat miUnset = false ∧
    completePromptExtract respTwoTexts = "a" ∧
    completePromptExtract respTwoTexts ≠ "ab" := by
  refine ⟨by decide, by decide, by decide, by decide⟩

/-- Claim C8, counterexample: on the V2 Responses path the
`toolCallIdentityById` map survives the end of a `createMessage` call, so an
identity recorded by one call resolves a name-less delta in a later call on
the same handler instance — starting from an empty table the same delta is
dropped. -/
theorem C8_counterexample_identity_crosses_calls :
    (createMessageResponsesV2
        (createMessageResponsesV2 [] [evItemAddedT1]).1 [evArgsDeltaT1]).2
      = [OutChunk.toolCallPart 0 (some "t1") (some "search") (some "{}")] ∧
    (createMessageResponsesV2 [] [evArgsDeltaT1]).2 = [] := by
  constructor <;> decide

theorem captureResponseMeta_pendingId (st : V1State) (ev : RespEvent) :
    (captureResponseMeta st ev).pendingToolCallId = st.pendingToolCallId := by
  unfold captureResponseMeta
  cases hr : ev.response with
  | none => rfl
  | some r =>
      cases ho : r.output <;> simp only [ho] <;> split <;> rfl

theorem captureResponseMeta_pendingName (st : V1State) (ev : RespEvent) :
    (captureResponseMeta st ev).pendingToolCallName = st.pendingToolCallName := by
  unfold captureResponseMeta
  cases hr : ev.response with
  | none => rfl
  | some r =>
      cases ho : r.output <;> simp only [ho] <;> split <;> rfl

theorem processResponsesEvent_argsDelta (st : V1State) (ev : RespEvent)
    (ht : ev.type = "response.tool_call_arguments.delta" ∨
          ev.type = "response.function_call_arguments.delta") :
    processResponsesEvent st ev =
      (captureResponseMeta st ev,
       if truthyS (jsOrS ev.name (jsOrS ev.function_name st.pendingToolCallName)) = true ∧
          truthyS (jsOrS ev.call_id (jsOrS ev.tool_call_id (jsOrS ev.id st.pendingToolCallId))) = true then
         [OutChunk.toolCallPart (ev.index.getD 0)
            (jsOrS ev.call_id (jsOrS ev.tool_call_id (jsOrS ev.id st.pendingToolCallId)))
            (jsOrS ev.name (jsOrS ev.function_name st.pendingToolCallName))
            (jsOrS ev.delta ev.arguments)]
       else []) := by
  rcases ht with ht | ht <;>
    simp only [processResponsesEvent, ht, captureResponseMeta_pendingId,
      captureResponseMeta_pendingName] <;>
    norm_num <;>
    by_cases hc : truthyS (jsOrS ev.name (jsOrS ev.function_name st.pendingToolCallName)) = true ∧
      truthyS (jsOrS ev.call_id (jsOrS ev.tool_call_id (jsOrS ev.id st.pendingToolCallId))) = true <;>
    simp [hc]

/-- Claim C2, amended: in the event-stream (Responses) interpreter, an
argument-delta event whose call id and name resolve neither from the event's
own fields nor from the pending-identity fallback yields no output chunk at
all, and processing any argument-delta event leaves the pending identity
slot unchanged; the chat-completions path, by contrast, emits a
`ToolCallPartial` for every delta entry regardless of identity. -/
theorem C2_amended_unresolvable_delta_dropped (st : V1State) (ev : RespEvent)
    (ht : ev.type = "response.tool_call_arguments.delta" ∨
          ev.type = "response.function_call_arguments.delta") :
    ((processResponsesEvent st ev).1.pendingToolCallId = st.pendingToolCallId ∧
     (processResponsesEvent st ev).1.pendingToolCallName = st.pendingToolCallName) ∧
    (¬ (truthyS (jsOrS ev.call_id (jsOrS ev.tool_call_id (jsOrS ev.id st.pendingToolCallId))) = true ∧
        truthyS (jsOrS ev.name (jsOrS ev.function_name st.pendingToolCallName)) = true) →
      (processResponsesEvent st ev).2 = []) := by
  rw [processResponsesEvent_argsDelta st ev ht]
  refine ⟨⟨captureResponseMeta_pendingId st ev, captureResponseMeta_pendingName st ev⟩, ?_⟩
  intro h
  have hc : ¬ (truthyS (jsOrS ev.name (jsOrS ev.function_name st.pendingToolCallName)) = true ∧
      truthyS (jsOrS ev.call_id (jsOrS ev.tool_call_id (jsOrS ev.id st.pendingToolCallId))) = true) :=
    fun hx => h ⟨hx.2, hx.1⟩
  simp [hc]

/-- Witness for C2: a name-less, id-less argument delta against the fresh
state is dropped and the pending identity slot is untouched. -/
theorem C2_witness :
    ((processResponsesEvent freshV1State
        { type := "response.tool_call_arguments.delta", delta := some "{}" }).1.pendingToolCallId
        = freshV1State.pendingToolCallId ∧
     (processResponsesEvent freshV1State
        { type := "response.tool_call_arguments.delta", delta := some "{}" }).1.pendingToolCallName
        = freshV1State.pendingToolCallName) ∧
    (¬ (truthyS (jsOrS none (jsOrS none (jsOrS none freshV1State.pendingToolCallId))) = true ∧
        truthyS (jsOrS none (jsOrS none freshV1State.pendingToolCallName)) = true) →
      (processResponsesEvent freshV1State
        { type := "response.tool_call_arguments.delta", delta := some "{}" }).2 = []) :=
  C2_amended_unresolvable_delta_dropped freshV1State
    { type := "response.tool_call_arguments.delta", delta := some "{}" } (Or.inl rfl)

/-- Claim C7: with native tools active, an unset or `"auto"` tool choice is
resolved to `"required"` on the chat request, while the explicit choices
`"none"`, `"required"` (any explicit non-`"auto"` string) and a specific
function name pass through to the request unchanged. -/
theorem C7_tool_choice_resolution (snt : Bool) (md : Option MetaE) :
    (useNativeTools snt md = true →
      ((requestedToolChoice md = none ∨ requestedToolChoice md = some (ToolChoiceV.tcStr "auto")) →
        requestToolChoice snt md = some (ToolChoiceV.tcStr "required")) ∧
      (∀ s : String, s ≠ "auto" → s ≠ "" →
        requestedToolChoice md = some (ToolChoiceV.tcStr s) →
        requestToolChoice snt md = some (ToolChoiceV.tcStr s)) ∧
      (∀ n : String, requestedToolChoice md = some (ToolChoiceV.tcNamed n) →
        requestToolChoice snt md = some (ToolChoiceV.tcNamed n))) ∧
    (requestedToolChoice md = some (ToolChoiceV.tcStr "none") →
      requestToolChoice snt md = some (ToolChoiceV.tcStr "none")) := by
  constructor
  · intro hn
    refine ⟨?_, ?_, ?_⟩
    · rintro (h | h) <;> simp [requestToolChoice, finalToolChoice, hn, h, tcTruthy]
    · intro s hs hne h
      have hts : tcTruthy (requestedToolChoice md) = true := by simp [h, tcTruthy, hne]
      have hna : ¬ requestedToolChoice md = some (ToolChoiceV.tcStr "auto") := by
        simp [h, hs]
      simp [requestToolChoice, finalToolChoice, hn, hts, hna, h, tcTruthy, hne, hs]
    · intro n h
      have hts : tcTruthy (requestedToolChoice md) = true := by simp [h, tcTruthy]
      have hna : ¬ requestedToolChoice md = some (ToolChoiceV.tcStr "auto") := by simp [h]
      simp [requestToolChoice, finalToolChoice, hn, hts, hna, h, tcTruthy]
  · intro h
    have hnn : useNativeTools snt md = false := by
      rcases md with _ | m
      · simp [requestedToolChoice] at h
      · simp only [requestedToolChoice, Option.bind] at h
        simp [useNativeTools, h]
    simp [requestToolChoice, finalToolChoice, hnn, h, tcTruthy]

/-- Witness for C7: with native tools active (one tool, native protocol) and
no caller tool choice, the request carries `tool_choice: "required"`. -/
theorem C7_witness :
    useNativeTools true
        (some { tools := some [{ fname := "search" }], toolProtocol := some "native" }) = true ∧
    requestToolChoice true
        (some { tools := some [{ fname := "search" }], toolProtocol := some "native" })
      = some (ToolChoiceV.tcStr "required") :=
  ⟨by decide,
   ((C7_tool_choice_resolution true
      (some { tools := some [{ fname := "search" }], toolProtocol := some "native" })).1
      (by decide)).1 (Or.inl rfl)⟩

/-- Claim C9: without a truthy bearer token, `createMessage` and
`completePrompt` throw the specific sign-in remediation message before any
network request is opened — the request list stays empty, so the call is
never attempted with an empty token. -/
theorem C9_auth_fails_before_network (tok : Option OcaToken) (chunks : List ChatChunk)
    (respContent : Option String)
    (h : truthyS (tok.bind OcaToken.access_token) = false) :
    createMessageChatTop tok chunks = ([], Except.error signInErrorMessage) ∧
    completePromptTop tok respContent = ([], Except.error signInErrorMessage) := by
  have hv : getValidAccessToken tok = Except.error signInErrorMessage := by
    rcases tok with _ | t
    · rfl
    · rcases ha : t.access_token with _ | s
      · simp [getValidAccessToken, ha]
      · simp only [Option.bind, ha, truthyS] at h
        simp [getValidAccessToken, ha]
        simp at h
        exact h
  constructor <;> simp [createMessageChatTop, completePromptTop, hv]

/-- Witness for C9: an absent credential makes both entry points fail with
the sign-in message and zero network requests. -/
theorem C9_witness :
    createMessageChatTop none [chunkTextHi] = ([], Except.error signInErrorMessage) ∧
    completePromptTop none (some "x") = ([], Except.error signInErrorMessage) :=
  C9_auth_fails_before_network none [chunkTextHi] (some "x") (by decide)

theorem mapGet_mapSet_isSome (tbl : List (String × String)) (k a b : String)
    (h : (mapGet tbl k).isSome = true) :
    (mapGet (mapSet tbl a b) k).isSome = true := by
  induction tbl with
  | nil => simp [mapGet] at h
  | cons e rest ih =>
      by_cases h1 : e.1 = a
      · by_cases h2 : a = k <;> simp_all [mapGet, mapSet]
      · by_cases h2 : e.1 = k <;> simp_all [mapGet, mapSet]

theorem processResponsesEventV2_table_persists (tbl : List (String × String))
    (ev : RespEvent) (k : String) (h : (mapGet tbl k).isSome = true) :
    (mapGet (processResponsesEventV2 tbl ev).1 k).isSome = true := by
  unfold processResponsesEventV2
  repeat' split
  all_goals first
    | exact h
    | exact mapGet_mapSet_isSome tbl k _ _ h
    | (dsimp only; rw [apply_ite Prod.fst]; dsimp only; rw [ite_self]; exact h)

theorem runResponsesV2_table_persists (events : List RespEvent) :
    ∀ (tbl : List (String × String)) (k : String),
      (mapGet tbl k).isSome = true →
      (mapGet (runResponsesV2 tbl events).1 k).isSome = true := by
  induction events with
  | nil => intro tbl k h; exact h
  | cons ev evs ih =>
      intro tbl k h
      exact ih _ _ (processResponsesEventV2_table_persists tbl ev k h)

/-- Claim C8, amended: the pending identity lives on the handler instance,
not in call scope.  In V1 the four instance fields are reset at the *start*
of each Responses-path `createMessage`, so its output is independent of
whatever state an earlier call left behind; in V2 the
`toolCallIdentityById` map is never cleared, and every identity it holds
survives any later `createMessage` call, available to influence resolution
there. -/
theorem C8_amended_instance_state (s1 s2 : V1State) (events : List RespEvent)
    (tbl : List (String × String)) (k : String)
    (hk : (mapGet tbl k).isSome = true) :
    createMessageResponsesV1 s1 events = createMessageResponsesV1 s2 events ∧
    (mapGet (createMessageResponsesV2 tbl events).1 k).isSome = true := by
  constructor
  · cases s1; cases s2; rfl
  · exact runResponsesV2_table_persists events tbl k hk

/-- Witness for C8: with `t1` registered in the table, any later call still
finds it; and V1 output never depends on the inherited state. -/
theorem C8_witness :
    createMessageResponsesV1
        { pendingToolCallId := some "zzz", pendingToolCallName := some "w" } [evArgsDeltaT1]
      = createMessageResponsesV1 freshV1State [evArgsDeltaT1] ∧
    (mapGet (createMessageResponsesV2 [("t1", "search")] [evArgsDeltaT1]).1 "t1").isSome = true :=
  C8_amended_instance_state
    { pendingToolCallId := some "zzz", pendingToolCallName := some "w" }
    freshV1State [evArgsDeltaT1] [("t1", "search")] "t1" (by decide)

theorem collectUser_eq (san : String → String) (bs : List UserBlock) :
    collectUser san bs = (bs.filterMap userContentPartOf, bs.filterMap (userToolItemOf san)) := by
  induction bs with
  | nil => simp [collectUser]
  | cons b bs ih =>
      cases b <;> simp [collectUser, userContentPartOf, userToolItemOf, ih]

theorem collectAsst_eq (san : String → String) (bs : List AsstBlock) :
    collectAsst san bs = (bs.filterMap asstContentPartOf, bs.filterMap (asstToolItemOf san)) := by
  induction bs with
  | nil => simp [collectAsst]
  | cons b bs ih =>
      cases b <;> simp [collectAsst, asstContentPartOf, asstToolItemOf, ih]

theorem formatFullConversationGo_eq (san : String → String) (ms : List SrcMessage) :
    ∀ acc, formatFullConversationGo san acc ms = acc ++ ms.flatMap (formatMsg san) := by
  induction ms with
  | nil => intro acc; simp [formatFullConversationGo]
  | cons m ms ih =>
      intro acc
      simp [formatFullConversationGo, ih, List.append_assoc]

/-- Claim C5, amended: `formatFullConversation` expands the messages in
source order, each message contributing its role-bearing item (when any
content part exists) *first* and its standalone tool-call/result items
*after it*; within each class the block order is preserved exactly, but a
tool-result block written before a content block in the same message is
emitted after the role-bearing item, so the produced item order need not
match the source block order across the two classes. -/
theorem C5_amended_grouped_order (san : String → String) (sp : String)
    (msgs : List SrcMessage) :
    formatFullConversation san sp msgs = msgs.flatMap (formatMsg san) ∧
    (∀ bs : List UserBlock,
      collectUser san bs = (bs.filterMap userContentPartOf, bs.filterMap (userToolItemOf san))) ∧
    (∀ bs : List AsstBlock,
      collectAsst san bs = (bs.filterMap asstContentPartOf, bs.filterMap (asstToolItemOf san))) :=
  ⟨formatFullConversationGo_eq san msgs [], collectUser_eq san, collectAsst_eq san⟩

theorem firstOutputTextInContent_eq (cs : List RespItemContent) :
    firstOutputTextInContent cs =
      (cs.filterMap fun c =>
        if c.type = "output_text" ∧ truthyS c.text then c.text else none).head? := by
  induction cs with
  | nil => simp [firstOutputTextInContent]
  | cons c cs ih =>
      by_cases hc : c.type = "output_text" ∧ truthyS c.text
      · rcases hc with ⟨h1, h2⟩
        rcases ht : c.text with _ | s
        · rw [ht] at h2
          simp [truthyS] at h2
        · rw [ht] at h2
          simp [firstOutputTextInContent, List.filterMap_cons, h1, h2, ht]
      · simp [firstOutputTextInContent, List.filterMap_cons, hc, ih]

theorem firstOutputTextInItems_eq (its : List RespItem) :
    firstOutputTextInItems its =
      (its.flatMap fun it =>
        if it.type = "message" ∧ it.content.isSome then
          (it.content.getD []).filterMap fun c =>
            if c.type = "output_text" ∧ truthyS c.text then c.text else none
        else []).head? := by
  induction its with
  | nil => simp [firstOutputTextInItems]
  | cons it its ih =>
      by_cases hm : it.type = "message" ∧ it.content.isSome
      · rcases hf : firstOutputTextInContent (it.content.getD []) with _ | t <;>
          rw [firstOutputTextInContent_eq] at hf <;>
          simp [firstOutputTextInItems, hm, List.flatMap_cons, List.head?_append, hf,
            firstOutputTextInContent_eq, ih]
      · simp [firstOutputTextInItems, hm, List.flatMap_cons, ih]

/-- Claim C6, amended: `completePrompt` runs its own protocol test
(chat-completions iff `apiType === "CHAT_COMPLETIONS"`, which can disagree
with `createMessage`'s Responses preference), and on the Responses path it
returns the *first* `output_text` of the response's `message` items — the
head of the document-order text list, not a concatenation — falling back to
the top-level `text` field and then to the empty string; tool calls are not
supported on this path. -/
theorem C6_amended_first_text_extraction (r : RespCompletion) :
    completePromptExtract r =
      ((allOutputTexts r).head?).getD (if truthyS r.text then r.text.getD "" else "") := by
  unfold completePromptExtract allOutputTexts
  rcases ho : r.output with _ | items
  · simp [ho]
  · simp only [ho, Option.getD_some]
    rw [firstOutputTextInItems_eq]
    rcases h : (items.flatMap fun it =>
        if it.type = "message" ∧ it.content.isSome then
          (it.content.getD []).filterMap fun c =>
            if c.type = "output_text" ∧ truthyS c.text then c.text else none
        else []).head? with _ | t <;> simp [h]

theorem processChatChunk_spec (st : List String) (c : ChatChunk) :
    processChatChunk st c =
      ((if c.finish_reason = some "tool_calls" ∧ (emitToolCalls st (chunkToolCalls c)).1 ≠ [] then
          []
        else (emitToolCalls st (chunkToolCalls c)).1),
       textIfTruthy (c.delta.bind ChatDelta.content) ++
         (emitToolCalls st (chunkToolCalls c)).2 ++
         reasoningIfTruthy (chunkReasoningText c) ++
         (if c.finish_reason = some "tool_calls" ∧ (emitToolCalls st (chunkToolCalls c)).1 ≠ [] then
            (emitToolCalls st (chunkToolCalls c)).1.map OutChunk.toolCallEnd
          else []) ++
         usageOfChat c.usage) := by
  unfold processChatChunk
  by_cases hf : c.finish_reason = some "tool_calls" ∧ (emitToolCalls st (chunkToolCalls c)).1 ≠ [] <;>
    simp [hf]

theorem mem_addActive_of_mem (st : List String) (a b : String) (h : a ∈ st) :
    a ∈ addActive st b := by
  unfold addActive
  split
  · exact h
  · exact List.mem_append_left _ h

theorem self_mem_addActive (st : List String) (b : String) : b ∈ addActive st b := by
  unfold addActive
  split
  · assumption
  · exact List.mem_append_right _ (List.mem_singleton.mpr rfl)

theorem emitToolCalls_superset (tcs : List ChatToolCall) :
    ∀ (st : List String) (id : String), id ∈ st → id ∈ (emitToolCalls st tcs).1 := by
  induction tcs with
  | nil => intro st id h; simpa [emitToolCalls] using h
  | cons tc rest ih =>
      intro st id h
      simp only [emitToolCalls]
      apply ih
      rcases hid : tc.id with _ | s
      · exact h
      · by_cases hs : s = "" <;> simp [hs]
        · exact h
        · exact mem_addActive_of_mem st id s h
  
theorem emitToolCalls_mem_of_mention (tcs : List ChatToolCall) :
    ∀ (st : List String) (tc : ChatToolCall) (i : String),
      tc ∈ tcs → tc.id = some i → i ≠ "" → i ∈ (emitToolCalls st tcs).1 := by
  induction tcs with
  | nil => intro st tc i h; simp at h
  | cons tc0 rest ih =>
      intro st tc i hmem hid hne
      rcases List.mem_cons.mp hmem with heq | htail
      · subst heq
        simp only [emitToolCalls]
        apply emitToolCalls_superset
        simp [hid, hne]
        exact self_mem_addActive st i
      · simp only [emitToolCalls]
        exact ih _ tc i htail hid hne

theorem processChatChunk_closure (st : List String) (c : ChatChunk) (id : String)
    (h : id ∈ (emitToolCalls st (chunkToolCalls c)).1) :
    OutChunk.toolCallEnd id ∈ (processChatChunk st c).2 ∨ id ∈ (processChatChunk st c).1 := by
  rw [processChatChunk_spec]
  by_cases hf : c.finish_reason = some "tool_calls" ∧ (emitToolCalls st (chunkToolCalls c)).1 ≠ []
  · left
    apply List.mem_append_left
    apply List.mem_append_right
    rw [if_pos hf]
    exact List.mem_map_of_mem _ h
  · right
    simp [hf, h]

theorem chatRun_mem_end (cs : List ChatChunk) :
    ∀ (st : List String) (id : String), id ∈ st →
      OutChunk.toolCallEnd id ∈ chatRun st cs := by
  induction cs with
  | nil =>
      intro st id h
      show OutChunk.toolCallEnd id ∈ st.map OutChunk.toolCallEnd
      exact List.mem_map_of_mem _ h
  | cons c cs ih =>
      intro st id h
      have hstep := processChatChunk_closure st c id
        (emitToolCalls_superset (chunkToolCalls c) st id h)
      simp only [chatRun, List.mem_append]
      rcases hstep with hout | hst
      · exact Or.inl hout
      · exact Or.inr (ih _ id hst)

theorem chatRun_mention_end (cs : List ChatChunk) :
    ∀ (st : List String) (id : String), id ≠ "" → chatMentionsId cs id = true →
      OutChunk.toolCallEnd id ∈ chatRun st cs := by
  induction cs with
  | nil => intro st id hne h; simp [chatMentionsId] at h
  | cons c cs ih =>
      intro st id hne h
      simp only [chatMentionsId, List.any_cons, Bool.or_eq_true] at h
      simp only [chatRun, List.mem_append]
      rcases h with hc | hcs
      · rcases List.any_eq_true.mp hc with ⟨tc, htc, hid⟩
        have hidq : tc.id = some id := by
          cases hq : tc.id <;> simp [hq] at hid <;> simp [hid]
        have hmem := emitToolCalls_mem_of_mention (chunkToolCalls c) st tc id htc hidq hne
        rcases processChatChunk_closure st c id hmem with hout | hst
        · exact Or.inl hout
        · exact Or.inr (chatRun_mem_end cs _ id hst)
      · exact Or.inr (ih _ id hne (by simpa [chatMentionsId] using hcs))

theorem not_end_mem_textIfTruthy (id : String) (o : Option String) :
    OutChunk.toolCallEnd id ∉ textIfTruthy o := by
  rcases o with _ | s
  · simp [textIfTruthy]
  · by_cases h : s = "" <;> simp [textIfTruthy, h]

theorem not_end_mem_reasoningIfTruthy (id : String) (o : Option String) :
    OutChunk.toolCallEnd id ∉ reasoningIfTruthy o := by
  rcases o with _ | s
  · simp [reasoningIfTruthy]
  · by_cases h : s = "" <;> simp [reasoningIfTruthy, h]

theorem not_end_mem_refusalIfTruthy (id : String) (o : Option String) :
    OutChunk.toolCallEnd id ∉ refusalIfTruthy o := by
  rcases o with _ | s
  · simp [refusalIfTruthy]
  · by_cases h : s = "" <;> simp [refusalIfTruthy, h]

theorem not_end_mem_usageOfResp (id : String) (u : Option RespUsage) :
    OutChunk.toolCallEnd id ∉ usageOfResp u := by
  rcases u with _ | v <;> simp [usageOfResp]

theorem not_end_mem_msgContentTexts (id : String) (cs : List RespItemContent) :
    OutChunk.toolCallEnd id ∉ msgContentTexts cs := by
  intro h
  simp only [msgContentTexts, List.mem_filterMap] at h
  rcases h with ⟨c, _, hfc⟩
  split at hfc <;> simp_all

theorem not_end_mem_processOutputItemV1 (id : String) (st : V1State) (isDone : Bool)
    (item : RespItem) :
    OutChunk.toolCallEnd id ∉ (processOutputItemV1 st isDone item).2 := by
  unfold processOutputItemV1
  simp only [apply_ite Prod.snd]
  repeat' split
  all_goals
    first
      | simp
      | exact not_end_mem_msgContentTexts id _

theorem not_end_mem_processResponsesEvent (id : String) (st : V1State) (ev : RespEvent) :
    OutChunk.toolCallEnd id ∉ (processResponsesEvent st ev).2 := by
  unfold processResponsesEvent
  simp only [apply_ite Prod.snd]
  repeat' split
  all_goals
    first
      | exact not_end_mem_textIfTruthy id _
      | exact not_end_mem_reasoningIfTruthy id _
      | exact not_end_mem_refusalIfTruthy id _
      | exact not_end_mem_usageOfResp id _
      | exact not_end_mem_processOutputItemV1 id _ _ _
      | simp [usageOfResp]

theorem not_end_mem_runResponsesV1 (id : String) (events : List RespEvent) :
    ∀ st : V1State, OutChunk.toolCallEnd id ∉ runResponsesV1 st events := by
  induction events with
  | nil => intro st; simp [runResponsesV1]
  | cons ev evs ih =>
      intro st
      simp only [runResponsesV1, List.mem_append, not_or]
      exact ⟨not_end_mem_processResponsesEvent id st ev, ih _⟩

/-- Claim C1, amended: on the chat-completions path every non-empty id
carried by at least one tool-call delta receives at least one `ToolCallEnd`
before the stream ends — synthesized at finalization when no explicit
`finish_reason === "tool_calls"` closed it; the V1 Responses path, by
contrast, never emits any `ToolCallEnd` (neither on the explicit
`...arguments.done` event nor at stream end). -/
theorem C1_amended_end_guarantee :
    (∀ (chunks : List ChatChunk) (id : String), id ≠ "" →
      chatMentionsId chunks id = true →
      OutChunk.toolCallEnd id ∈ chatCreateMessage chunks) ∧
    (∀ (st : V1State) (events : List RespEvent) (id : String),
      OutChunk.toolCallEnd id ∉ createMessageResponsesV1 st events) := by
  constructor
  · intro chunks id hne h
    exact chatRun_mention_end chunks [] id hne h
  · intro st events id
    exact not_end_mem_runResponsesV1 id events _

/-- Witness for C1: the id `c1` mentioned by a delta with no closing
`finish_reason` still gets its synthetic `ToolCallEnd` on the chat path,
while the Responses path emits none for `t1`. -/
theorem C1_witness :
    OutChunk.toolCallEnd "c1" ∈ chatCreateMessage [chunkToolC1] ∧
    OutChunk.toolCallEnd "t1" ∉ createMessageResponsesV1 freshV1State [evItemAddedT1, evArgsDeltaT1] :=
  ⟨C1_amended_end_guarantee.1 [chunkToolC1] "c1" (by decide) (by decide),
   C1_amended_end_guarantee.2 freshV1State [evItemAddedT1, evArgsDeltaT1] "t1"⟩

theorem not_usage_mem_textIfTruthy (i o : Nat) (opt : Option String) :
    OutChunk.usage i o ∉ textIfTruthy opt := by
  rcases opt with _ | s
  · simp [textIfTruthy]
  · by_cases h : s = "" <;> simp [textIfTruthy, h]

theorem not_usage_mem_reasoningIfTruthy (i o : Nat) (opt : Option String) :
    OutChunk.usage i o ∉ reasoningIfTruthy opt := by
  rcases opt with _ | s
  · simp [reasoningIfTruthy]
  · by_cases h : s = "" <;> simp [reasoningIfTruthy, h]

theorem not_usage_mem_emitToolCalls (i o : Nat) (tcs : List ChatToolCall) :
    ∀ st : List String, OutChunk.usage i o ∉ (emitToolCalls st tcs).2 := by
  induction tcs with
  | nil => intro st; simp [emitToolCalls]
  | cons tc rest ih =>
      intro st
      simp only [emitToolCalls, List.mem_cons, not_or]
      exact ⟨by simp, ih _⟩

theorem not_usage_mem_map_end (i o : Nat) (l : List String) :
    OutChunk.usage i o ∉ l.map OutChunk.toolCallEnd := by
  simp [List.mem_map]

theorem processChatChunk_usage_split (st : List String) (c : ChatChunk) :
    ∃ pre, (processChatChunk st c).2 = pre ++ usageOfChat c.usage ∧
      ∀ i o : Nat, OutChunk.usage i o ∉ pre := by
  rw [processChatChunk_spec]
  refine ⟨textIfTruthy (c.delta.bind ChatDelta.content) ++
    (emitToolCalls st (chunkToolCalls c)).2 ++
    reasoningIfTruthy (chunkReasoningText c) ++
    (if c.finish_reason = some "tool_calls" ∧ (emitToolCalls st (chunkToolCalls c)).1 ≠ [] then
       (emitToolCalls st (chunkToolCalls c)).1.map OutChunk.toolCallEnd
     else []), rfl, ?_⟩
  intro i o
  simp only [List.mem_append, not_or]
  refine ⟨⟨⟨not_usage_mem_textIfTruthy i o _, not_usage_mem_emitToolCalls i o _ st⟩,
    not_usage_mem_reasoningIfTruthy i o _⟩, ?_⟩
  split
  · exact not_usage_mem_map_end i o _
  · simp

theorem isUsage_false_of_not_mem (l : List OutChunk)
    (h : ∀ i o : Nat, OutChunk.usage i o ∉ l) :
    ∀ e ∈ l, isUsageChunk e = false := by
  intro e he
  cases e with
  | usage i o => exact absurd he (h i o)
  | text s => rfl
  | reasoning s => rfl
  | toolCallPart i a b c => rfl
  | toolCall a b c => rfl
  | toolCallEnd a => rfl

theorem chatRun_usage_terminal (cs : List ChatChunk) :
    ∀ st : List String,
      (∀ c ∈ cs.dropLast, c.usage = none) →
      chatFinalState st cs = [] →
      ∀ e ∈ (chatRun st cs).dropLast, isUsageChunk e = false := by
  induction cs with
  | nil =>
      intro st h1 h2 e he
      have hst : st = [] := h2
      subst hst
      simp [chatRun] at he
  | cons c cs ih =>
      intro st h1 h2 e he
      rcases processChatChunk_usage_split st c with ⟨pre, hsplit, hpre⟩
      have hfs : chatFinalState (processChatChunk st c).1 cs = [] := h2
      rw [show chatRun st (c :: cs)
            = (processChatChunk st c).2 ++ chatRun (processChatChunk st c).1 cs from rfl] at he
      by_cases hcs : cs = []
      · subst hcs
        have hst1 : (processChatChunk st c).1 = [] := hfs
        rw [show chatRun (processChatChunk st c).1 []
              = (processChatChunk st c).1.map OutChunk.toolCallEnd from rfl, hst1] at he
        simp only [List.map_nil, List.append_nil, hsplit] at he
        rcases hu : c.usage with _ | u
        · rw [hu] at he
          simp only [usageOfChat, List.append_nil] at he
          exact isUsage_false_of_not_mem pre hpre e (List.dropLast_subset pre he)
        · rw [hu] at he
          simp only [usageOfChat] at he
          rw [List.dropLast_concat] at he
          exact isUsage_false_of_not_mem pre hpre e he
      · have hcu : c.usage = none := by
          apply h1
          rw [List.dropLast_cons_of_ne_nil hcs]
          exact List.mem_cons_self c cs.dropLast
        have hout : (processChatChunk st c).2 = pre := by
          rw [hsplit, hcu]
          simp [usageOfChat]
        rw [hout] at he
        by_cases hrun : chatRun (processChatChunk st c).1 cs = []
        · rw [hrun, List.append_nil] at he
          exact isUsage_false_of_not_mem pre hpre e (List.dropLast_subset pre he)
        · rw [List.dropLast_append_of_ne_nil pre hrun] at he
          rcases List.mem_append.mp he with hin | hin
          · exact isUsage_false_of_not_mem pre hpre e hin
          · refine ih (processChatChunk st c).1 ?_ hfs e hin
            intro c' hc'
            apply h1
            rw [List.dropLast_cons_of_ne_nil hcs]
            exact List.mem_cons_of_mem c hc'

theorem countP_usage_le_one_of_terminal (l : List OutChunk)
    (h : ∀ e ∈ l.dropLast, isUsageChunk e = false) :
    l.countP isUsageChunk ≤ 1 := by
  induction l with
  | nil => simp
  | cons e es ih =>
      by_cases hes : es = []
      · subst hes
        by_cases hu : isUsageChunk e = true <;> simp [List.countP_cons, hu]
      · have hd : (e :: es).dropLast = e :: es.dropLast := List.dropLast_cons_of_ne_nil hes
        have he : isUsageChunk e = false := by
          apply h
          rw [hd]
          exact List.mem_cons_self e es.dropLast
        have hrec : es.countP isUsageChunk ≤ 1 := by
          apply ih
          intro x hx
          apply h
          rw [hd]
          exact List.mem_cons_of_mem e hx
        simpa [List.countP_cons, he] using hrec

/-- Claim C3, amended: `Usage` chunks are produced only while processing a
usage-bearing chunk, as the last emission for that chunk; hence on any chat
stream whose non-final chunks carry no usage counters and whose tool calls
are all closed by stream end (empty active set, so finalization emits
nothing), the `Usage` event is emitted at most once and only in terminal
position.  Without those conditions the finalization `ToolCallEnd`s follow
the `Usage` event. -/
theorem C3_amended_usage_terminal (chunks : List ChatChunk)
    (h1 : ∀ c ∈ chunks.dropLast, c.usage = none)
    (h2 : chatFinalState [] chunks = []) :
    (∀ e ∈ (chatCreateMessage chunks).dropLast, isUsageChunk e = false) ∧
    (chatCreateMessage chunks).countP isUsageChunk ≤ 1 := by
  have hterm := chatRun_usage_terminal chunks [] h1 h2
  exact ⟨hterm, countP_usage_le_one_of_terminal _ hterm⟩

/-- Witness for C3: a text chunk followed by a final usage-bearing chunk
yields `Usage` exactly once, in terminal position. -/
theorem C3_witness :
    (∀ c ∈ ([chunkTextHi, chunkUsage105] : List ChatChunk).dropLast, c.usage = none) ∧
    chatFinalState [] [chunkTextHi, chunkUsage105] = [] ∧
    ((∀ e ∈ (chatCreateMessage [chunkTextHi, chunkUsage105]).dropLast, isUsageChunk e = false) ∧
     (chatCreateMessage [chunkTextHi, chunkUsage105]).countP isUsageChunk ≤ 1) :=
  ⟨by decide, by decide,
   C3_amended_usage_terminal [chunkTextHi, chunkUsage105] (by decide) (by decide)⟩

theorem nonEmpty_mem_textIfTruthy (e : OutChunk) (o : Option String)
    (he : e ∈ textIfTruthy o) : nonEmptyTextChunk e = true := by
  rcases o with _ | s
  · simp [textIfTruthy] at he
  · by_cases h : s = ""
    · simp [textIfTruthy, h] at he
    · simp only [textIfTruthy, if_neg h, List.mem_singleton] at he
      subst he
      simp [nonEmptyTextChunk, h]

theorem nonEmpty_mem_reasoningIfTruthy (e : OutChunk) (o : Option String)
    (he : e ∈ reasoningIfTruthy o) : nonEmptyTextChunk e = true := by
  rcases o with _ | s
  · simp [reasoningIfTruthy] at he
  · by_cases h : s = ""
    · simp [reasoningIfTruthy, h] at he
    · simp only [reasoningIfTruthy, if_neg h, List.mem_singleton] at he
      subst he
      simp [nonEmptyTextChunk, h]

theorem nonEmpty_mem_refusalIfTruthy (e : OutChunk) (o : Option String)
    (he : e ∈ refusalIfTruthy o) : nonEmptyTextChunk e = true := by
  rcases o with _ | s
  · simp [refusalIfTruthy] at he
  · by_cases h : s = ""
    · simp [refusalIfTruthy, h] at he
    · simp only [refusalIfTruthy, if_neg h, List.mem_singleton] at he
      subst he
      simp only [nonEmptyTextChunk, decide_eq_true_eq]
      intro hcon
      have hl := congrArg String.length hcon
      simp [String.length_append] at hl
      exact absurd hl.1 (by decide)

theorem nonEmpty_mem_msgContentTexts (e : OutChunk) (cs : List RespItemContent)
    (he : e ∈ msgContentTexts cs) : nonEmptyTextChunk e = true := by
  simp only [msgContentTexts, List.mem_filterMap] at he
  rcases he with ⟨c, _, hfc⟩
  split at hfc
  · rename_i hcond
    rcases ht : c.text with _ | t
    · rw [ht] at hcond
      simp [truthyS] at hcond
    · rw [ht] at hcond
      have hne : t ≠ "" := by simpa [truthyS] using hcond.2
      rw [ht] at hfc
      have he2 : e = OutChunk.text t := by
        simpa using hfc.symm
      subst he2
      simp [nonEmptyTextChunk, hne]
  · simp at hfc

theorem nonEmpty_mem_usageOfChat (e : OutChunk) (u : Option ChatUsage)
    (he : e ∈ usageOfChat u) : nonEmptyTextChunk e = true := by
  rcases u with _ | v <;> simp [usageOfChat] at he
  subst he
  rfl

theorem nonEmpty_mem_usageOfResp (e : OutChunk) (u : Option RespUsage)
    (he : e ∈ usageOfResp u) : nonEmptyTextChunk e = true := by
  rcases u with _ | v <;> simp [usageOfResp] at he
  subst he
  rfl

theorem nonEmpty_mem_emitToolCalls (e : OutChunk) (tcs : List ChatToolCall) :
    ∀ st : List String, e ∈ (emitToolCalls st tcs).2 → nonEmptyTextChunk e = true := by
  induction tcs with
  | nil => intro st he; simp [emitToolCalls] at he
  | cons tc rest ih =>
      intro st he
      simp only [emitToolCalls, List.mem_cons] at he
      rcases he with he | he
      · subst he; rfl
      · exact ih _ he

theorem nonEmpty_mem_map_end (e : OutChunk) (l : List String)
    (he : e ∈ l.map OutChunk.toolCallEnd) : nonEmptyTextChunk e = true := by
  rcases List.mem_map.mp he with ⟨a, _, ha⟩
  subst ha
  rfl

theorem nonEmpty_mem_processChatChunk (e : OutChunk) (st : List String) (c : ChatChunk)
    (he : e ∈ (processChatChunk st c).2) : nonEmptyTextChunk e = true := by
  rw [processChatChunk_spec] at he
  simp only [List.mem_append] at he
  rcases he with ((((h | h) | h) | h) | h)
  · exact nonEmpty_mem_textIfTruthy e _ h
  · exact nonEmpty_mem_emitToolCalls e _ st h
  · exact nonEmpty_mem_reasoningIfTruthy e _ h
  · split at h
    · exact nonEmpty_mem_map_end e _ h
    · simp at h
  · exact nonEmpty_mem_usageOfChat e _ h

theorem nonEmpty_mem_chatRun (e : OutChunk) (cs : List ChatChunk) :
    ∀ st : List String, e ∈ chatRun st cs → nonEmptyTextChunk e = true := by
  induction cs with
  | nil =>
      intro st he
      exact nonEmpty_mem_map_end e st he
  | cons c cs ih =>
      intro st he
      rcases List.mem_append.mp he with h | h
      · exact nonEmpty_mem_processChatChunk e st c h
      · exact ih _ h

theorem nonEmpty_mem_processOutputItemV1 (e : OutChunk) (st : V1State) (d : Bool)
    (item : RespItem) (he : e ∈ (processOutputItemV1 st d item).2) :
    nonEmptyTextChunk e = true := by
  unfold processOutputItemV1 at he
  simp only [apply_ite Prod.snd] at he
  repeat' split at he
  all_goals first
    | exact absurd he (List.not_mem_nil e)
    | exact nonEmpty_mem_msgContentTexts e _ he
    | (rename_i hcond
       rcases ht : item.text with _ | t
       · rw [ht] at hcond
         simp [truthyS] at hcond
       · rw [ht] at hcond
         have hne : t ≠ "" := by simpa [truthyS] using hcond.2
         rw [ht] at he
         simp only [List.mem_singleton] at he
         subst he
         simp [nonEmptyTextChunk, hne])
    | (simp only [List.mem_singleton] at he
       subst he
       rfl)

theorem nonEmpty_mem_processResponsesEvent (e : OutChunk) (st : V1State) (ev : RespEvent)
    (he : e ∈ (processResponsesEvent st ev).2) : nonEmptyTextChunk e = true := by
  unfold processResponsesEvent at he
  simp only [apply_ite Prod.snd] at he
  repeat' split at he
  all_goals first
    | exact absurd he (List.not_mem_nil e)
    | exact nonEmpty_mem_textIfTruthy e _ he
    | exact nonEmpty_mem_reasoningIfTruthy e _ he
    | exact nonEmpty_mem_refusalIfTruthy e _ he
    | exact nonEmpty_mem_usageOfResp e _ he
    | exact nonEmpty_mem_processOutputItemV1 e _ _ _ he
    | (rename_i hcond
       rcases ht : ev.choices0_delta_content with _ | t
       · rw [ht] at hcond
         simp [truthyS] at hcond
       · rw [ht] at hcond
         have hne : t ≠ "" := by simpa [truthyS] using hcond
         rw [ht] at he
         simp only [List.mem_singleton] at he
         subst he
         simp [nonEmptyTextChunk, hne])
    | (simp only [List.mem_singleton] at he
       subst he
       rfl)

theorem nonEmpty_mem_runResponsesV1 (e : OutChunk) (events : List RespEvent) :
    ∀ st : V1State, e ∈ runResponsesV1 st events → nonEmptyTextChunk e = true := by
  induction events with
  | nil => intro st he; simp [runResponsesV1] at he
  | cons ev evs ih =>
      intro st he
      rcases List.mem_append.mp he with h | h
      · exact nonEmpty_mem_processResponsesEvent e st ev h
      · exact ih _ h

theorem nonEmpty_mem_processResponsesEventV2 (e : OutChunk) (tbl : List (String × String))
    (ev : RespEvent) (he : e ∈ (processResponsesEventV2 tbl ev).2) :
    nonEmptyTextChunk e = true := by
  unfold processResponsesEventV2 at he
  simp only [apply_ite Prod.snd] at he
  repeat' split at he
  all_goals first
    | exact absurd he (List.not_mem_nil e)
    | exact nonEmpty_mem_textIfTruthy e _ he
    | exact nonEmpty_mem_reasoningIfTruthy e _ he
    | exact nonEmpty_mem_usageOfResp e _ he
    | (simp only [List.mem_singleton] at he
       subst he
       rfl)

theorem nonEmpty_mem_runResponsesV2 (e : OutChunk) (events : List RespEvent) :
    ∀ tbl : List (String × String), e ∈ (runResponsesV2 tbl events).2 →
      nonEmptyTextChunk e = true := by
  induction events with
  | nil => intro tbl he; simp [runResponsesV2] at he
  | cons ev evs ih =>
      intro tbl he
      rcases List.mem_append.mp he with h | h
      · exact nonEmpty_mem_processResponsesEventV2 e tbl ev h
      · exact ih _ h

/-- Claim C10: every `Text` and `Reasoning` chunk any of the three
interpreters emits carries a non-empty content string — an absent or empty
text/reasoning delta yields no such chunk at all. -/
theorem C10_text_reasoning_nonempty :
    (∀ (chunks : List ChatChunk) (e : OutChunk),
      e ∈ chatCreateMessage chunks → nonEmptyTextChunk e = true) ∧
    (∀ (st : V1State) (events : List RespEvent) (e : OutChunk),
      e ∈ createMessageResponsesV1 st events → nonEmptyTextChunk e = true) ∧
    (∀ (tbl : List (String × String)) (events : List RespEvent) (e : OutChunk),
      e ∈ (createMessageResponsesV2 tbl events).2 → nonEmptyTextChunk e = true) := by
  refine ⟨?_, ?_, ?_⟩
  · intro chunks e he
    exact nonEmpty_mem_chatRun e chunks [] he
  · intro st events e he
    exact nonEmpty_mem_runResponsesV1 e events _ he
  · intro tbl events e he
    exact nonEmpty_mem_runResponsesV2 e events tbl he

/-- Witness for C10: concrete emitted chunks of the chat and Responses
interpreters satisfy the non-empty-content property. -/
theorem C10_witness :
    nonEmptyTextChunk (OutChunk.text "Hi") = true ∧
    nonEmptyTextChunk (OutChunk.toolCallPart 0 (some "t1") (some "search") (some "{}")) = true :=
  ⟨C10_text_reasoning_nonempty.1 [chunkTextHi] (OutChunk.text "Hi") (by decide),
   C10_text_reasoning_nonempty.2.1 freshV1State [evItemAddedT1, evArgsDeltaT1]
     (OutChunk.toolCallPart 0 (some "t1") (some "search") (some "{}")) (by decide)⟩
